import Mathlib

/-!
Verification of the pypresenter overlay core (pypresenter.py).

Shallow embedding of the program's data model and operations:

* points and rectangles stand for QPoint/QPointF/QRect (integer
  coordinates, exact rational radii/alphas in place of Python floats);
* `Config` holds the session parameters of class `Config` that the
  modelled core reads (default values from `Config.__init__`);
* `GlobalState` embeds class `GlobalState` (`cycle_mode`) and the hotkey
  handlers `handle_activate` / `handle_deactivate` of
  `start_overlay_hotkey_manager`, with signal emissions made explicit;
* `OverlayState` embeds the mutable fields of class `PresenterOverlay`;
  each method (`activate_effect`, `deactivate_effect`, `_on_timer_tick`,
  `_update_mode_flags`, `_update_timer_state`, `_on_mode_changed`,
  `_on_screen_changed`, `_check_screen_change`) becomes a pure function
  returning the new state together with its observable outputs
  (`update()` repaint requests, scheduled focus restoration);
* `paintOps` embeds `paintEvent` as the list of compositing operations it
  issues, and `renderAlpha` gives the per-pixel alpha semantics of those
  operations (SourceOver / DestinationOut on an alpha surface);
* `stepF` / `Reachable` tie everything into the event-driven system the
  hotkey thread and the two timers drive: queued one-shot timers
  (the 150-unit reactivation delay after a screen change, the 30-unit
  focus-restore delay) are modelled as pending flags fired by their own
  events.
-/

/-- A 2-D integer point (QPoint / QPointF cursor positions). -/
structure Pt where
  x : Int
  y : Int
deriving DecidableEq, Repr

/-- A display rectangle: origin and size (QRect). -/
structure Rect where
  x : Int
  y : Int
  w : Int
  h : Int
deriving DecidableEq, Repr

/-- The configuration values the modelled core reads (class `Config`).
Python floats are embedded as exact rationals, Python ints as integers. -/
structure Config where
  MODES : List String
  SPOT_RADIUS : ℚ
  BACKGROUND_ALPHA : ℤ
  SPOT_RING_THICKNESS : ℚ
  SPOT_RING_COLOR_A : ℤ
  LASER_MAX_TRAIL_LENGTH : ℤ
  LASER_BASE_RADIUS : ℚ
  LASER_HEAD_MULTIPLIER : ℚ
  LASER_MIN_ALPHA : ℤ

/-- The built-in defaults from `Config.__init__`. -/
def defaultConfig : Config where
  MODES := ["SPOTLIGHT_HOLD", "LASER"]
  SPOT_RADIUS := 200
  BACKGROUND_ALPHA := 155
  SPOT_RING_THICKNESS := 1/20
  SPOT_RING_COLOR_A := 255
  LASER_MAX_TRAIL_LENGTH := 15
  LASER_BASE_RADIUS := 12
  LASER_HEAD_MULTIPLIER := 3/2
  LASER_MIN_ALPHA := 25

/-- From `Config._update_values`: `hole_fraction = 1 - 2*blur_width`. -/
def Config.hole_fraction (c : Config) : ℚ := 1 - 2 * c.SPOT_RING_THICKNESS

/-- From `Config._update_values`:
`hole_radius = SPOT_RADIUS * (hole_fraction + blur_width)`. -/
def Config.hole_radius (c : Config) : ℚ :=
  c.SPOT_RADIUS * (c.hole_fraction + c.SPOT_RING_THICKNESS)

/-- From `Config._update_values`: `rim_radius = SPOT_RADIUS`. -/
def Config.rim_radius (c : Config) : ℚ := c.SPOT_RADIUS

/-- Python `int(...)` applied to an exact rational: truncation toward zero. -/
def pyInt (q : ℚ) : ℤ := if 0 ≤ q then ⌊q⌋ else ⌈q⌉

/-- Interpolation parameter of dot `i` of `total` in `paintEvent`'s laser
loop: `t = i / (total - 1)` when `total > 1`, else `1.0`. -/
def laserT (total i : ℕ) : ℚ :=
  if 1 < total then (i : ℚ) / ((total : ℚ) - 1) else 1

/-- Alpha of laser dot `i` of `total` (`paintEvent`, laser branch):
`alpha = int(LASER_MIN_ALPHA + (255 - LASER_MIN_ALPHA) * t)`, overridden
to `255` for the head dot `i == total - 1`. -/
def laserDotAlpha (cfg : Config) (total i : ℕ) : ℤ :=
  if i = total - 1 then 255
  else pyInt ((cfg.LASER_MIN_ALPHA : ℚ)
    + ((255 : ℚ) - (cfg.LASER_MIN_ALPHA : ℚ)) * laserT total i)

/-- Radius of laser dot `i` of `total` (`paintEvent`, laser branch):
`radius = LASER_BASE_RADIUS`, multiplied by `LASER_HEAD_MULTIPLIER` for
the head dot. -/
def laserDotRadius (cfg : Config) (total i : ℕ) : ℚ :=
  if i = total - 1 then cfg.LASER_BASE_RADIUS * cfg.LASER_HEAD_MULTIPLIER
  else cfg.LASER_BASE_RADIUS

/-- Embedding of class `GlobalState`: current mode index/name and the
`SPOTLIGHT_TOGGLE` engagement flag. -/
structure GlobalState where
  mode_index : ℕ
  current_mode : String
  is_toggled_on : Bool
deriving DecidableEq, Repr

/-- From `GlobalState.__init__`: first configured mode, or `"SPOTLIGHT_HOLD"`
when the configured list is empty. -/
def initGlobal (cfg : Config) : GlobalState :=
  match cfg.MODES with
  | [] => { mode_index := 0, current_mode := "SPOTLIGHT_HOLD", is_toggled_on := false }
  | m :: _ => { mode_index := 0, current_mode := m, is_toggled_on := false }

/-- Embedding of `GlobalState.cycle_mode`: returns `"SPOTLIGHT_HOLD"` unchanged when
`MODES` is empty; otherwise resets the toggle flag, advances the index
modulo the list length and installs the mode at the new index.  The
result pairs the new state with the returned mode string. -/
def cycle_mode (cfg : Config) (gs : GlobalState) : GlobalState × String :=
  if cfg.MODES = [] then (gs, "SPOTLIGHT_HOLD")
  else
    let idx := (gs.mode_index + 1) % cfg.MODES.length
    let m := cfg.MODES.getD idx "SPOTLIGHT_HOLD"
    ({ mode_index := idx, current_mode := m, is_toggled_on := false }, m)

/-- The two abstract intents the hotkey handlers emit toward the overlay
(`effect_activate` / `effect_deactivate` signals). -/
inductive Emission where
  | activate
  | deactivate
deriving DecidableEq, Repr

/-- Hotkey handler `handle_activate` (Ctrl+L press): in
`SPOTLIGHT_TOGGLE` mode it flips `is_toggled_on` and emits activate when
it was off, deactivate when it was on; in `SPOTLIGHT_HOLD` or `LASER`
mode it emits activate; any other mode string does nothing. -/
def handle_activate (gs : GlobalState) : GlobalState × List Emission :=
  if gs.current_mode = "SPOTLIGHT_TOGGLE" then
    if gs.is_toggled_on = false then
      ({ gs with is_toggled_on := true }, [Emission.activate])
    else
      ({ gs with is_toggled_on := false }, [Emission.deactivate])
  else if gs.current_mode = "SPOTLIGHT_HOLD" ∨ gs.current_mode = "LASER" then
    (gs, [Emission.activate])
  else
    (gs, [])

/-- Hotkey handler `handle_deactivate` (Ctrl+A release): emits deactivate
in `SPOTLIGHT_HOLD` or `LASER` mode, nothing otherwise. -/
def handle_deactivate (gs : GlobalState) : GlobalState × List Emission :=
  if gs.current_mode = "SPOTLIGHT_HOLD" ∨ gs.current_mode = "LASER" then
    (gs, [Emission.deactivate])
  else
    (gs, [])

/-- The mutable per-widget state of class `PresenterOverlay`.
`current_geometry` is the class attribute `_current_geometry` (a single
widget exists).  `pending_reactivate` models the queued
`QTimer.singleShot(150, self.activate_effect)` of `_on_screen_changed`. -/
structure OverlayState where
  overlay_active : Bool
  mouse_pos : Pt
  laser_trail : List Pt
  is_spotlight_mode : Bool
  is_laser_mode : Bool
  timer_active : Bool
  timer_interval : ℕ
  geometry : Rect
  current_geometry : Rect
  pending_reactivate : Bool
deriving DecidableEq, Repr

/-- The attribute `self.interval_laser` (30 time units). -/
def interval_laser : ℕ := 30

/-- The attribute `self.interval_spotlight` (30 time units). -/
def interval_spotlight : ℕ := 30

/-- Embedding of `QWidget.mapFromGlobal`: global cursor position to widget-local
coordinates, i.e. translation by the widget origin. -/
def mapFromGlobal (geom : Rect) (p : Pt) : Pt :=
  { x := p.x - geom.x, y := p.y - geom.y }

/-- Embedding of `PresenterOverlay._update_mode_flags`: reads the current mode from the
global state and derives the two boolean mode flags. -/
def update_mode_flags (mode : String) (s : OverlayState) : OverlayState :=
  { s with
    is_spotlight_mode := mode == "SPOTLIGHT_HOLD" || mode == "SPOTLIGHT_TOGGLE"
    is_laser_mode := mode == "LASER" }

/-- Embedding of `PresenterOverlay._update_timer_state`: the animation timer runs (with
the mode's interval) when the laser or a spotlight mode is current and is
stopped otherwise. -/
def update_timer_state (s : OverlayState) : OverlayState :=
  if s.is_laser_mode then
    { s with timer_interval := interval_laser, timer_active := true }
  else if s.is_spotlight_mode then
    { s with timer_interval := interval_spotlight, timer_active := true }
  else
    { s with timer_active := false }

/-- Embedding of `PresenterOverlay.activate_effect`: when the effect is inactive, mark
it active, capture the cursor (widget-local) as `mouse_pos`, and request
one repaint (`self.update()`); otherwise do nothing.  The returned boolean
is the repaint request.  (The macOS-only recording of the frontmost
application is an external capability and not part of the state.) -/
def activate_effect (cursor : Pt) (s : OverlayState) : OverlayState × Bool :=
  if s.overlay_active = false then
    ({ s with overlay_active := true
              mouse_pos := mapFromGlobal s.geometry cursor }, true)
  else
    (s, false)

/-- Embedding of `PresenterOverlay.deactivate_effect(is_mode_switch)`: when active,
clear `overlay_active`, empty the laser trail and request one repaint;
the second output is the repaint request, the third is whether a delayed
focus restoration is scheduled (the code schedules it only when this is a
real deactivation, `not is_mode_switch`, on a platform that recorded a
previous frontmost application). -/
def deactivate_effect (is_mode_switch : Bool) (s : OverlayState) :
    OverlayState × Bool × Bool :=
  if s.overlay_active = true then
    ({ s with overlay_active := false, laser_trail := [] }, true, !is_mode_switch)
  else
    (s, false, false)

/-- Embedding of `PresenterOverlay._on_mode_changed(new_mode)`: deactivate as a mode
switch, re-derive the mode flags (the code reads
`global_state.current_mode`, passed here as `mode`), request a repaint,
and re-derive the timer state.  Output: the repaint request (always
issued). -/
def on_mode_changed (mode : String) (s : OverlayState) : OverlayState × Bool :=
  let s1 := (deactivate_effect true s).1
  let s2 := update_mode_flags mode s1
  let s3 := update_timer_state s2
  (s3, true)

/-- Embedding of `PresenterOverlay._on_timer_tick`: reads the global cursor, maps it to
local coordinates and compares with `mouse_pos`.  Unmoved: in laser mode
with more than one trail point, pop the oldest point and mark a repaint
needed.  Moved: store the new position, mark a repaint needed, and in
laser mode while the effect is active append the point, popping the
oldest when the length exceeds `LASER_MAX_TRAIL_LENGTH`.  The output
boolean is whether `self.update()` is called, which the code guards by
`needs_repaint and self.overlay_active`. -/
def on_timer_tick (cfg : Config) (cursor : Pt) (s : OverlayState) :
    OverlayState × Bool :=
  let local_pos := mapFromGlobal s.geometry cursor
  if local_pos = s.mouse_pos then
    if s.is_laser_mode && decide (1 < s.laser_trail.length) then
      let s1 := { s with laser_trail := s.laser_trail.tail }
      (s1, s1.overlay_active)
    else
      (s, false)
  else
    let s1 := { s with mouse_pos := local_pos }
    let s2 :=
      if s1.is_laser_mode && s1.overlay_active then
        let t := s1.laser_trail ++ [local_pos]
        { s1 with laser_trail :=
            if cfg.LASER_MAX_TRAIL_LENGTH < (t.length : ℤ) then t.tail else t }
      else s1
    (s2, s2.overlay_active)

/-- Embedding of `PresenterOverlay._on_screen_changed`: remember whether the effect was
active, deactivate as a mode switch (no focus restoration), move the
widget to the new geometry, request one immediate repaint, and when the
effect was active queue a delayed `activate_effect`
(`QTimer.singleShot(150, ...)`, modelled by `pending_reactivate`).
Outputs: the forced repaint request and the (never taken) focus-restore
scheduling of the inner deactivation. -/
def on_screen_changed (newGeom : Rect) (s : OverlayState) :
    OverlayState × Bool × Bool :=
  let was_active := s.overlay_active
  let d := deactivate_effect true s
  let s2 := { d.1 with geometry := newGeom }
  ({ s2 with pending_reactivate := was_active }, true, d.2.2)

/-- Embedding of `PresenterOverlay._check_screen_change`: when the geometry of the
display under the cursor differs from the stored `_current_geometry`,
store the new geometry and run the screen-change handler (the code emits
`screen_changed`, which is connected to `_on_screen_changed`). -/
def check_screen_change (newGeom : Rect) (s : OverlayState) :
    OverlayState × Bool × Bool :=
  if newGeom ≠ s.current_geometry then
    let s1 := { s with current_geometry := newGeom }
    on_screen_changed newGeom s1
  else
    (s, false, false)

/-- Firing of the queued 150-unit reactivation timer from
`_on_screen_changed`: runs `activate_effect` at the current cursor. -/
def fire_pending_activate (cursor : Pt) (s : OverlayState) : OverlayState :=
  if s.pending_reactivate = true then
    (activate_effect cursor { s with pending_reactivate := false }).1
  else
    s

/-- From `PresenterOverlay.__init__`: effect inactive, cursor origin, empty
trail, timer stopped, both geometry copies set to the initial geometry;
then `_update_mode_flags()` and `_update_timer_state()` run. -/
def initOverlay (cfg : Config) (geom : Rect) : OverlayState :=
  let s0 : OverlayState :=
    { overlay_active := false
      mouse_pos := { x := 0, y := 0 }
      laser_trail := []
      is_spotlight_mode := false
      is_laser_mode := false
      timer_active := false
      timer_interval := interval_laser
      geometry := geom
      current_geometry := geom
      pending_reactivate := false }
  update_timer_state (update_mode_flags (initGlobal cfg).current_mode s0)

/-- The whole modelled system: hotkey-visible global state plus the
overlay widget state. -/
structure Sys where
  gs : GlobalState
  ov : OverlayState
deriving DecidableEq, Repr

/-- Initial system state for a given initial screen geometry. -/
def initSys (cfg : Config) (geom : Rect) : Sys :=
  { gs := initGlobal cfg, ov := initOverlay cfg geom }

/-- Delivery of one emitted intent to the overlay (the signal
connections `effect_activate -> activate_effect` and
`effect_deactivate -> deactivate_effect` made in `__init__`). -/
def applyEmission (cursor : Pt) (ov : OverlayState) (e : Emission) : OverlayState :=
  match e with
  | Emission.activate => (activate_effect cursor ov).1
  | Emission.deactivate => (deactivate_effect false ov).1

/-- The events that drive the system: the two hotkey intents, the
mode-cycle hotkey, an animation-timer tick (carrying the cursor the tick
reads), a screen-tracker tick (carrying the geometry of the display under
the cursor), and the firing of the queued screen-change reactivation. -/
inductive Ev where
  | pressActivate (cursor : Pt)
  | releaseActivate (cursor : Pt)
  | cycleMode
  | tick (cursor : Pt)
  | screenTick (newGeom : Rect)
  | reactivateTimer (cursor : Pt)

/-- One system step.  The animation tick fires only while the timer is
running; the queued reactivation fires only while one is pending (inside
`fire_pending_activate`). -/
def stepF (cfg : Config) (s : Sys) (e : Ev) : Sys :=
  match e with
  | Ev.pressActivate c =>
      let r := handle_activate s.gs
      { gs := r.1, ov := r.2.foldl (applyEmission c) s.ov }
  | Ev.releaseActivate c =>
      let r := handle_deactivate s.gs
      { gs := r.1, ov := r.2.foldl (applyEmission c) s.ov }
  | Ev.cycleMode =>
      let r := cycle_mode cfg s.gs
      { gs := r.1, ov := (on_mode_changed r.1.current_mode s.ov).1 }
  | Ev.tick c =>
      if s.ov.timer_active = true then
        { gs := s.gs, ov := (on_timer_tick cfg c s.ov).1 }
      else s
  | Ev.screenTick g =>
      { gs := s.gs, ov := (check_screen_change g s.ov).1 }
  | Ev.reactivateTimer c =>
      { gs := s.gs, ov := fire_pending_activate c s.ov }

/-- The states the program can reach: the initial state for some initial
geometry, closed under system steps. -/
inductive Reachable (cfg : Config) : Sys → Prop where
  | init (geom : Rect) : Reachable cfg (initSys cfg geom)
  | step {s : Sys} (h : Reachable cfg s) (e : Ev) : Reachable cfg (stepF cfg s e)

/-- The two composition rules `paintEvent` sets
(`CompositionMode_SourceOver`, `CompositionMode_DestinationOut`). -/
inductive CompMode where
  | sourceOver
  | destinationOut
deriving DecidableEq, Repr

/-- One compositing operation issued by `paintEvent`, restricted to the
alpha data the transparency claims need: a full-surface fill with a color
of the given alpha, a filled ellipse with a solid brush of the given
alpha, or the rim ellipse filled with the radial gradient rim brush. -/
inductive DrawOp where
  | fillRect (alpha : ℚ) (mode : CompMode)
  | ellipseSolid (center : Pt) (radius : ℚ) (alpha : ℚ) (mode : CompMode)
  | ellipseRim (center : Pt) (radius : ℚ) (mode : CompMode)
deriving DecidableEq, Repr

/-- Embedding of `PresenterOverlay.paintEvent` as the list of compositing operations it
issues: always first the transparent SourceOver fill; nothing more when
the effect is inactive; in spotlight mode the dim background fill, the
DestinationOut hole cut (solid opaque `hole_brush`) and the SourceOver
rim-gradient ellipse; in laser mode one solid SourceOver dot per trail
point, oldest first, with the per-dot alpha and radius of the source
loop. -/
def paintOps (cfg : Config) (s : OverlayState) : List DrawOp :=
  DrawOp.fillRect 0 CompMode.sourceOver ::
  (if s.overlay_active = false then []
   else if s.is_spotlight_mode then
     [DrawOp.fillRect (cfg.BACKGROUND_ALPHA : ℚ) CompMode.sourceOver,
      DrawOp.ellipseSolid s.mouse_pos cfg.hole_radius 255 CompMode.destinationOut,
      DrawOp.ellipseRim s.mouse_pos cfg.rim_radius CompMode.sourceOver]
   else if s.is_laser_mode then
     if s.laser_trail = [] then []
     else
       s.laser_trail.enum.map (fun ip =>
         DrawOp.ellipseSolid ip.2 (laserDotRadius cfg s.laser_trail.length ip.1)
           ((laserDotAlpha cfg s.laser_trail.length ip.1 : ℚ)) CompMode.sourceOver)
   else [])

/-- Alpha-channel result of compositing a source alpha over a destination
alpha (0 = fully transparent, 255 = opaque):
SourceOver keeps `sa + da * (1 - sa/255)`, DestinationOut keeps
`da * (1 - sa/255)`. -/
def compAlpha (m : CompMode) (sa da : ℚ) : ℚ :=
  match m with
  | CompMode.sourceOver => sa + da * (1 - sa / 255)
  | CompMode.destinationOut => da * (1 - sa / 255)

/-- Squared euclidean distance between two integer points, as a rational. -/
def sqDist (p q : Pt) : ℚ :=
  (((p.x - q.x) ^ 2 + (p.y - q.y) ^ 2 : ℤ) : ℚ)

/-- Alpha of the rim gradient brush (`Config._update_values`: stops 0 at
the center, 0 at `hole_fraction`, ring alpha at
`hole_fraction + blur_width`, 0 at the radius) as a function of the
squared fractional radial position.  Rationals admit no square root, so
the radial position is tracked by its square and the interpolation
between the (squared) stop positions is linear in the square; no theorem
below depends on the interpolated rim values, only on the operation's
presence and disc-shaped region. -/
def rimGradAlphaSq (cfg : Config) (u : ℚ) : ℚ :=
  let hf := cfg.hole_fraction
  let b := cfg.SPOT_RING_THICKNESS
  let a := (cfg.SPOT_RING_COLOR_A : ℚ)
  if u ≤ hf ^ 2 then 0
  else if u ≤ (hf + b) ^ 2 then a * (u - hf ^ 2) / ((hf + b) ^ 2 - hf ^ 2)
  else if u ≤ 1 then a * (1 - u) / (1 - (hf + b) ^ 2)
  else 0

/-- Source alpha an operation contributes at a pixel: `none` when the
pixel is outside the operation's footprint. -/
def opSrcAlpha (cfg : Config) (op : DrawOp) (p : Pt) : Option ℚ :=
  match op with
  | DrawOp.fillRect a _ => some a
  | DrawOp.ellipseSolid c r a _ => if sqDist p c ≤ r ^ 2 then some a else none
  | DrawOp.ellipseRim c r _ =>
      if sqDist p c ≤ r ^ 2 then some (rimGradAlphaSq cfg (sqDist p c / r ^ 2))
      else none

/-- The composition mode of an operation. -/
def opMode (op : DrawOp) : CompMode :=
  match op with
  | DrawOp.fillRect _ m => m
  | DrawOp.ellipseSolid _ _ _ m => m
  | DrawOp.ellipseRim _ _ m => m

/-- Per-pixel alpha after applying one operation to a surface. -/
def applyOpAlpha (cfg : Config) (op : DrawOp) (surf : Pt → ℚ) : Pt → ℚ :=
  fun p =>
    match opSrcAlpha cfg op p with
    | some sa => compAlpha (opMode op) sa (surf p)
    | none => surf p

/-- Per-pixel alpha of the frame `paintEvent` leaves on the backing
surface `surf` it is handed (for a `WA_TranslucentBackground` widget the
toolkit hands over a fully transparent surface). -/
def renderAlpha (cfg : Config) (s : OverlayState) (surf : Pt → ℚ) : Pt → ℚ :=
  (paintOps cfg s).foldl (fun acc op => applyOpAlpha cfg op acc) surf

/-! ### Characterization lemmas for the overlay operations -/

theorem activate_effect_fst (c : Pt) (s : OverlayState) :
    (activate_effect c s).1 =
      if s.overlay_active = false then
        { s with overlay_active := true, mouse_pos := mapFromGlobal s.geometry c }
      else s := by
  unfold activate_effect
  split <;> rfl

theorem deactivate_effect_fst (b : Bool) (s : OverlayState) :
    (deactivate_effect b s).1 =
      if s.overlay_active = true then
        { s with overlay_active := false, laser_trail := [] }
      else s := by
  unfold deactivate_effect
  split <;> rfl

theorem activate_effect_active (c : Pt) (s : OverlayState) :
    (activate_effect c s).1.overlay_active = true := by
  rw [activate_effect_fst]
  split <;> simp_all

theorem deactivate_effect_active (b : Bool) (s : OverlayState) :
    (deactivate_effect b s).1.overlay_active = false := by
  rw [deactivate_effect_fst]
  split <;> simp_all

theorem deactivate_effect_trail (b : Bool) (s : OverlayState)
    (h : s.overlay_active = false → s.laser_trail = []) :
    (deactivate_effect b s).1.laser_trail = [] := by
  rw [deactivate_effect_fst]
  split <;> simp_all

theorem update_timer_state_timer (s : OverlayState) :
    (update_timer_state s).timer_active = (s.is_laser_mode || s.is_spotlight_mode) := by
  unfold update_timer_state
  split
  · simp_all
  · split <;> simp_all

theorem update_mode_flags_spot (m : String) (s : OverlayState) :
    (update_mode_flags m s).is_spotlight_mode =
      (m == "SPOTLIGHT_HOLD" || m == "SPOTLIGHT_TOGGLE") := rfl

theorem update_mode_flags_laser (m : String) (s : OverlayState) :
    (update_mode_flags m s).is_laser_mode = (m == "LASER") := rfl

theorem update_mode_flags_active (m : String) (s : OverlayState) :
    (update_mode_flags m s).overlay_active = s.overlay_active := rfl

theorem update_mode_flags_trail (m : String) (s : OverlayState) :
    (update_mode_flags m s).laser_trail = s.laser_trail := rfl

theorem update_mode_flags_mouse (m : String) (s : OverlayState) :
    (update_mode_flags m s).mouse_pos = s.mouse_pos := rfl

theorem update_mode_flags_geometry (m : String) (s : OverlayState) :
    (update_mode_flags m s).geometry = s.geometry := rfl

theorem update_mode_flags_cgeom (m : String) (s : OverlayState) :
    (update_mode_flags m s).current_geometry = s.current_geometry := rfl

theorem update_mode_flags_pending (m : String) (s : OverlayState) :
    (update_mode_flags m s).pending_reactivate = s.pending_reactivate := rfl

theorem update_timer_state_active (s : OverlayState) :
    (update_timer_state s).overlay_active = s.overlay_active := by
  unfold update_timer_state
  split
  · rfl
  · split <;> rfl

theorem update_timer_state_trail (s : OverlayState) :
    (update_timer_state s).laser_trail = s.laser_trail := by
  unfold update_timer_state
  split
  · rfl
  · split <;> rfl

theorem update_timer_state_mouse (s : OverlayState) :
    (update_timer_state s).mouse_pos = s.mouse_pos := by
  unfold update_timer_state
  split
  · rfl
  · split <;> rfl

theorem update_timer_state_spot (s : OverlayState) :
    (update_timer_state s).is_spotlight_mode = s.is_spotlight_mode := by
  unfold update_timer_state
  split
  · rfl
  · split <;> rfl

theorem update_timer_state_laser (s : OverlayState) :
    (update_timer_state s).is_laser_mode = s.is_laser_mode := by
  unfold update_timer_state
  split
  · rfl
  · split <;> rfl

theorem update_timer_state_geometry (s : OverlayState) :
    (update_timer_state s).geometry = s.geometry := by
  unfold update_timer_state
  split
  · rfl
  · split <;> rfl

theorem update_timer_state_cgeom (s : OverlayState) :
    (update_timer_state s).current_geometry = s.current_geometry := by
  unfold update_timer_state
  split
  · rfl
  · split <;> rfl

theorem update_timer_state_pending (s : OverlayState) :
    (update_timer_state s).pending_reactivate = s.pending_reactivate := by
  unfold update_timer_state
  split
  · rfl
  · split <;> rfl

theorem activate_effect_trail (c : Pt) (s : OverlayState) :
    (activate_effect c s).1.laser_trail = s.laser_trail := by
  rw [activate_effect_fst]
  split <;> rfl

theorem activate_effect_spot (c : Pt) (s : OverlayState) :
    (activate_effect c s).1.is_spotlight_mode = s.is_spotlight_mode := by
  rw [activate_effect_fst]
  split <;> rfl

theorem activate_effect_laser (c : Pt) (s : OverlayState) :
    (activate_effect c s).1.is_laser_mode = s.is_laser_mode := by
  rw [activate_effect_fst]
  split <;> rfl

theorem activate_effect_timer (c : Pt) (s : OverlayState) :
    (activate_effect c s).1.timer_active = s.timer_active := by
  rw [activate_effect_fst]
  split <;> rfl

theorem activate_effect_geometry (c : Pt) (s : OverlayState) :
    (activate_effect c s).1.geometry = s.geometry := by
  rw [activate_effect_fst]
  split <;> rfl

theorem activate_effect_cgeom (c : Pt) (s : OverlayState) :
    (activate_effect c s).1.current_geometry = s.current_geometry := by
  rw [activate_effect_fst]
  split <;> rfl

theorem activate_effect_pending (c : Pt) (s : OverlayState) :
    (activate_effect c s).1.pending_reactivate = s.pending_reactivate := by
  rw [activate_effect_fst]
  split <;> rfl

theorem deactivate_effect_spot (b : Bool) (s : OverlayState) :
    (deactivate_effect b s).1.is_spotlight_mode = s.is_spotlight_mode := by
  rw [deactivate_effect_fst]
  split <;> rfl

theorem deactivate_effect_laser (b : Bool) (s : OverlayState) :
    (deactivate_effect b s).1.is_laser_mode = s.is_laser_mode := by
  rw [deactivate_effect_fst]
  split <;> rfl

theorem deactivate_effect_timer (b : Bool) (s : OverlayState) :
    (deactivate_effect b s).1.timer_active = s.timer_active := by
  rw [deactivate_effect_fst]
  split <;> rfl

theorem deactivate_effect_mouse (b : Bool) (s : OverlayState) :
    (deactivate_effect b s).1.mouse_pos = s.mouse_pos := by
  rw [deactivate_effect_fst]
  split <;> rfl

theorem deactivate_effect_geometry (b : Bool) (s : OverlayState) :
    (deactivate_effect b s).1.geometry = s.geometry := by
  rw [deactivate_effect_fst]
  split <;> rfl

theorem deactivate_effect_cgeom (b : Bool) (s : OverlayState) :
    (deactivate_effect b s).1.current_geometry = s.current_geometry := by
  rw [deactivate_effect_fst]
  split <;> rfl

theorem deactivate_effect_pending (b : Bool) (s : OverlayState) :
    (deactivate_effect b s).1.pending_reactivate = s.pending_reactivate := by
  rw [deactivate_effect_fst]
  split <;> rfl

theorem on_mode_changed_active (m : String) (s : OverlayState) :
    (on_mode_changed m s).1.overlay_active = false := by
  unfold on_mode_changed
  rw [update_timer_state_active, update_mode_flags_active, deactivate_effect_active]

theorem on_mode_changed_trail (m : String) (s : OverlayState)
    (h : s.overlay_active = false → s.laser_trail = []) :
    (on_mode_changed m s).1.laser_trail = [] := by
  unfold on_mode_changed
  rw [update_timer_state_trail, update_mode_flags_trail, deactivate_effect_trail _ _ h]

theorem on_mode_changed_spot (m : String) (s : OverlayState) :
    (on_mode_changed m s).1.is_spotlight_mode =
      (m == "SPOTLIGHT_HOLD" || m == "SPOTLIGHT_TOGGLE") := by
  unfold on_mode_changed
  rw [update_timer_state_spot, update_mode_flags_spot]

theorem on_mode_changed_laser (m : String) (s : OverlayState) :
    (on_mode_changed m s).1.is_laser_mode = (m == "LASER") := by
  unfold on_mode_changed
  rw [update_timer_state_laser, update_mode_flags_laser]

theorem on_mode_changed_timer (m : String) (s : OverlayState) :
    (on_mode_changed m s).1.timer_active =
      ((m == "LASER") || (m == "SPOTLIGHT_HOLD" || m == "SPOTLIGHT_TOGGLE")) := by
  unfold on_mode_changed
  rw [update_timer_state_timer, update_mode_flags_laser, update_mode_flags_spot]

theorem on_mode_changed_mouse (m : String) (s : OverlayState) :
    (on_mode_changed m s).1.mouse_pos = s.mouse_pos := by
  unfold on_mode_changed
  rw [update_timer_state_mouse, update_mode_flags_mouse, deactivate_effect_mouse]

theorem on_mode_changed_geometry (m : String) (s : OverlayState) :
    (on_mode_changed m s).1.geometry = s.geometry := by
  unfold on_mode_changed
  rw [update_timer_state_geometry, update_mode_flags_geometry, deactivate_effect_geometry]

theorem on_mode_changed_cgeom (m : String) (s : OverlayState) :
    (on_mode_changed m s).1.current_geometry = s.current_geometry := by
  unfold on_mode_changed
  rw [update_timer_state_cgeom, update_mode_flags_cgeom, deactivate_effect_cgeom]

theorem on_mode_changed_pending (m : String) (s : OverlayState) :
    (on_mode_changed m s).1.pending_reactivate = s.pending_reactivate := by
  unfold on_mode_changed
  rw [update_timer_state_pending, update_mode_flags_pending, deactivate_effect_pending]

theorem on_timer_tick_eq (cfg : Config) (c : Pt) (s : OverlayState) :
    on_timer_tick cfg c s =
      if mapFromGlobal s.geometry c = s.mouse_pos then
        if s.is_laser_mode && decide (1 < s.laser_trail.length) then
          ({ s with laser_trail := s.laser_trail.tail }, s.overlay_active)
        else (s, false)
      else
        if s.is_laser_mode && s.overlay_active then
          ({ s with
              mouse_pos := mapFromGlobal s.geometry c
              laser_trail :=
                if cfg.LASER_MAX_TRAIL_LENGTH <
                    ((s.laser_trail ++ [mapFromGlobal s.geometry c]).length : ℤ) then
                  (s.laser_trail ++ [mapFromGlobal s.geometry c]).tail
                else s.laser_trail ++ [mapFromGlobal s.geometry c] },
            s.overlay_active)
        else ({ s with mouse_pos := mapFromGlobal s.geometry c }, s.overlay_active) := by
  unfold on_timer_tick
  dsimp only
  split
  · split <;> rfl
  · split <;> rfl

theorem on_timer_tick_active (cfg : Config) (c : Pt) (s : OverlayState) :
    (on_timer_tick cfg c s).1.overlay_active = s.overlay_active := by
  rw [on_timer_tick_eq]
  split <;> split <;> rfl

theorem on_timer_tick_spot (cfg : Config) (c : Pt) (s : OverlayState) :
    (on_timer_tick cfg c s).1.is_spotlight_mode = s.is_spotlight_mode := by
  rw [on_timer_tick_eq]
  split <;> split <;> rfl

theorem on_timer_tick_laser (cfg : Config) (c : Pt) (s : OverlayState) :
    (on_timer_tick cfg c s).1.is_laser_mode = s.is_laser_mode := by
  rw [on_timer_tick_eq]
  split <;> split <;> rfl

theorem on_timer_tick_timer (cfg : Config) (c : Pt) (s : OverlayState) :
    (on_timer_tick cfg c s).1.timer_active = s.timer_active := by
  rw [on_timer_tick_eq]
  split <;> split <;> rfl

theorem on_timer_tick_geometry (cfg : Config) (c : Pt) (s : OverlayState) :
    (on_timer_tick cfg c s).1.geometry = s.geometry := by
  rw [on_timer_tick_eq]
  split <;> split <;> rfl

theorem on_timer_tick_cgeom (cfg : Config) (c : Pt) (s : OverlayState) :
    (on_timer_tick cfg c s).1.current_geometry = s.current_geometry := by
  rw [on_timer_tick_eq]
  split <;> split <;> rfl

theorem on_timer_tick_pending (cfg : Config) (c : Pt) (s : OverlayState) :
    (on_timer_tick cfg c s).1.pending_reactivate = s.pending_reactivate := by
  rw [on_timer_tick_eq]
  split <;> split <;> rfl

theorem on_timer_tick_trail_inv (cfg : Config) (c : Pt) (s : OverlayState)
    (h : s.overlay_active = false → s.laser_trail = []) :
    (on_timer_tick cfg c s).1.overlay_active = false →
      (on_timer_tick cfg c s).1.laser_trail = [] := by
  rw [on_timer_tick_active, on_timer_tick_eq]
  intro ha
  have ht := h ha
  split
  · split
    · rename_i hc
      rw [ht] at hc
      simp at hc
    · exact ht
  · split
    · rename_i hc
      rw [ha] at hc
      simp at hc
    · exact ht

theorem on_timer_tick_bound (cfg : Config) (c : Pt) (s : OverlayState)
    (hb : (s.laser_trail.length : ℤ) ≤ cfg.LASER_MAX_TRAIL_LENGTH) :
    ((on_timer_tick cfg c s).1.laser_trail.length : ℤ) ≤ cfg.LASER_MAX_TRAIL_LENGTH := by
  rw [on_timer_tick_eq]
  split
  · split
    · simp only [List.length_tail]
      omega
    · exact hb
  · split
    · dsimp only
      split
      · rename_i hc
        simp only [List.length_tail, List.length_append, List.length_cons,
          List.length_nil] at *
        omega
      · rename_i hc
        simp only [List.length_append, List.length_cons, List.length_nil] at *
        omega
    · exact hb


theorem on_screen_changed_active (g : Rect) (s : OverlayState) :
    (on_screen_changed g s).1.overlay_active = false := by
  unfold on_screen_changed
  dsimp only
  rw [deactivate_effect_fst]
  split <;> simp_all

theorem on_screen_changed_trail (g : Rect) (s : OverlayState)
    (h : s.overlay_active = false → s.laser_trail = []) :
    (on_screen_changed g s).1.laser_trail = [] := by
  unfold on_screen_changed
  dsimp only
  have := deactivate_effect_trail true s h
  rw [deactivate_effect_fst] at this ⊢
  split <;> simp_all [deactivate_effect_fst]

theorem on_screen_changed_spot (g : Rect) (s : OverlayState) :
    (on_screen_changed g s).1.is_spotlight_mode = s.is_spotlight_mode := by
  unfold on_screen_changed
  dsimp only
  rw [deactivate_effect_fst]
  split <;> rfl

theorem on_screen_changed_laser (g : Rect) (s : OverlayState) :
    (on_screen_changed g s).1.is_laser_mode = s.is_laser_mode := by
  unfold on_screen_changed
  dsimp only
  rw [deactivate_effect_fst]
  split <;> rfl

theorem on_screen_changed_timer (g : Rect) (s : OverlayState) :
    (on_screen_changed g s).1.timer_active = s.timer_active := by
  unfold on_screen_changed
  dsimp only
  rw [deactivate_effect_fst]
  split <;> rfl

theorem on_screen_changed_mouse (g : Rect) (s : OverlayState) :
    (on_screen_changed g s).1.mouse_pos = s.mouse_pos := by
  unfold on_screen_changed
  dsimp only
  rw [deactivate_effect_fst]
  split <;> rfl

theorem on_screen_changed_geometry (g : Rect) (s : OverlayState) :
    (on_screen_changed g s).1.geometry = g := by
  unfold on_screen_changed
  dsimp only

theorem on_screen_changed_cgeom (g : Rect) (s : OverlayState) :
    (on_screen_changed g s).1.current_geometry = s.current_geometry := by
  unfold on_screen_changed
  dsimp only
  rw [deactivate_effect_fst]
  split <;> rfl

theorem on_screen_changed_pending (g : Rect) (s : OverlayState) :
    (on_screen_changed g s).1.pending_reactivate = s.overlay_active := by
  unfold on_screen_changed
  dsimp only

theorem on_screen_changed_focus (g : Rect) (s : OverlayState) :
    (on_screen_changed g s).2.2 = false := by
  unfold on_screen_changed deactivate_effect
  dsimp only
  split <;> rfl

theorem fire_pending_activate_trail (c : Pt) (s : OverlayState) :
    (fire_pending_activate c s).laser_trail = s.laser_trail := by
  unfold fire_pending_activate
  split
  · rw [activate_effect_trail]
  · rfl

theorem fire_pending_activate_spot (c : Pt) (s : OverlayState) :
    (fire_pending_activate c s).is_spotlight_mode = s.is_spotlight_mode := by
  unfold fire_pending_activate
  split
  · rw [activate_effect_spot]
  · rfl

theorem fire_pending_activate_laser (c : Pt) (s : OverlayState) :
    (fire_pending_activate c s).is_laser_mode = s.is_laser_mode := by
  unfold fire_pending_activate
  split
  · rw [activate_effect_laser]
  · rfl

theorem fire_pending_activate_timer (c : Pt) (s : OverlayState) :
    (fire_pending_activate c s).timer_active = s.timer_active := by
  unfold fire_pending_activate
  split
  · rw [activate_effect_timer]
  · rfl

theorem fire_pending_activate_active_false (c : Pt) (s : OverlayState)
    (h : (fire_pending_activate c s).overlay_active = false) :
    s.overlay_active = false := by
  unfold fire_pending_activate at h
  split at h
  · rw [activate_effect_active] at h
    exact absurd h (by simp)
  · exact h

theorem initGlobal_toggled (cfg : Config) : (initGlobal cfg).is_toggled_on = false := by
  unfold initGlobal
  split <;> rfl

theorem initGlobal_empty (cfg : Config) (h : cfg.MODES = []) :
    (initGlobal cfg).current_mode = "SPOTLIGHT_HOLD" := by
  unfold initGlobal
  split <;> simp_all

theorem initOverlay_active (cfg : Config) (geom : Rect) :
    (initOverlay cfg geom).overlay_active = false := by
  unfold initOverlay
  dsimp only
  rw [update_timer_state_active, update_mode_flags_active]

theorem initOverlay_trail (cfg : Config) (geom : Rect) :
    (initOverlay cfg geom).laser_trail = [] := by
  unfold initOverlay
  dsimp only
  rw [update_timer_state_trail, update_mode_flags_trail]

theorem initOverlay_spot (cfg : Config) (geom : Rect) :
    (initOverlay cfg geom).is_spotlight_mode =
      ((initGlobal cfg).current_mode == "SPOTLIGHT_HOLD" ||
       (initGlobal cfg).current_mode == "SPOTLIGHT_TOGGLE") := by
  unfold initOverlay
  dsimp only
  rw [update_timer_state_spot, update_mode_flags_spot]

theorem initOverlay_laser (cfg : Config) (geom : Rect) :
    (initOverlay cfg geom).is_laser_mode = ((initGlobal cfg).current_mode == "LASER") := by
  unfold initOverlay
  dsimp only
  rw [update_timer_state_laser, update_mode_flags_laser]

theorem initOverlay_timer (cfg : Config) (geom : Rect) :
    (initOverlay cfg geom).timer_active =
      ((initOverlay cfg geom).is_laser_mode || (initOverlay cfg geom).is_spotlight_mode) := by
  unfold initOverlay
  dsimp only
  rw [update_timer_state_timer, update_timer_state_laser, update_timer_state_spot]

theorem initOverlay_mouse (cfg : Config) (geom : Rect) :
    (initOverlay cfg geom).mouse_pos = { x := 0, y := 0 } := by
  unfold initOverlay
  dsimp only
  rw [update_timer_state_mouse, update_mode_flags_mouse]

theorem initOverlay_geometry (cfg : Config) (geom : Rect) :
    (initOverlay cfg geom).geometry = geom := by
  unfold initOverlay
  dsimp only
  rw [update_timer_state_geometry, update_mode_flags_geometry]

theorem initOverlay_cgeom (cfg : Config) (geom : Rect) :
    (initOverlay cfg geom).current_geometry = geom := by
  unfold initOverlay
  dsimp only
  rw [update_timer_state_cgeom, update_mode_flags_cgeom]

theorem initOverlay_pending (cfg : Config) (geom : Rect) :
    (initOverlay cfg geom).pending_reactivate = false := by
  unfold initOverlay
  dsimp only
  rw [update_timer_state_pending, update_mode_flags_pending]

/-- The reachable-state invariant tying the overlay's cached flags to the
global mode, the animation timer to the mode flags, the toggle flag to
the toggle mode, and the trail to the activation state. -/
def SysInv (cfg : Config) (s : Sys) : Prop :=
  (s.ov.overlay_active = false → s.ov.laser_trail = []) ∧
  s.ov.is_spotlight_mode =
    (s.gs.current_mode == "SPOTLIGHT_HOLD" || s.gs.current_mode == "SPOTLIGHT_TOGGLE") ∧
  s.ov.is_laser_mode = (s.gs.current_mode == "LASER") ∧
  s.ov.timer_active = (s.ov.is_laser_mode || s.ov.is_spotlight_mode) ∧
  (s.gs.is_toggled_on = true → s.gs.current_mode = "SPOTLIGHT_TOGGLE") ∧
  (cfg.MODES = [] → s.gs.current_mode = "SPOTLIGHT_HOLD")

theorem reachable_SysInv (cfg : Config) {s : Sys} (h : Reachable cfg s) :
    SysInv cfg s := by
  induction h with
  | init geom =>
      unfold SysInv initSys
      refine ⟨?_, ?_, ?_, ?_, ?_, ?_⟩
      · intro _
        exact initOverlay_trail cfg geom
      · exact initOverlay_spot cfg geom
      · exact initOverlay_laser cfg geom
      · exact initOverlay_timer cfg geom
      · intro hb
        rw [initGlobal_toggled] at hb
        cases hb
      · exact initGlobal_empty cfg
  | step hr e ih =>
      obtain ⟨ih1, ih2, ih3, ih4, ih5, ih6⟩ := ih
      rename_i s
      cases e with
      | pressActivate c =>
          show SysInv cfg (stepF cfg s (Ev.pressActivate c))
          simp only [stepF]
          unfold handle_activate
          split
          · rename_i ht
            split
            · dsimp only
              simp only [List.foldl, applyEmission]
              refine ⟨?_, ?_, ?_, ?_, ?_, ?_⟩
              · intro ha
                rw [activate_effect_active] at ha
                cases ha
              · rw [activate_effect_spot]
                exact ih2
              · rw [activate_effect_laser]
                exact ih3
              · rw [activate_effect_timer, activate_effect_laser, activate_effect_spot]
                exact ih4
              · intro _
                exact ht
              · exact ih6
            · dsimp only
              simp only [List.foldl, applyEmission]
              refine ⟨?_, ?_, ?_, ?_, ?_, ?_⟩
              · intro _
                exact deactivate_effect_trail false s.ov ih1
              · rw [deactivate_effect_spot]
                exact ih2
              · rw [deactivate_effect_laser]
                exact ih3
              · rw [deactivate_effect_timer, deactivate_effect_laser, deactivate_effect_spot]
                exact ih4
              · intro hb
                cases hb
              · exact ih6
          · split
            · dsimp only
              simp only [List.foldl, applyEmission]
              refine ⟨?_, ?_, ?_, ?_, ih5, ih6⟩
              · intro ha
                rw [activate_effect_active] at ha
                cases ha
              · rw [activate_effect_spot]
                exact ih2
              · rw [activate_effect_laser]
                exact ih3
              · rw [activate_effect_timer, activate_effect_laser, activate_effect_spot]
                exact ih4
            · exact ⟨ih1, ih2, ih3, ih4, ih5, ih6⟩
      | releaseActivate c =>
          show SysInv cfg (stepF cfg s (Ev.releaseActivate c))
          simp only [stepF]
          unfold handle_deactivate
          split
          · dsimp only
            simp only [List.foldl, applyEmission]
            refine ⟨?_, ?_, ?_, ?_, ih5, ih6⟩
            · intro _
              exact deactivate_effect_trail false s.ov ih1
            · rw [deactivate_effect_spot]
              exact ih2
            · rw [deactivate_effect_laser]
              exact ih3
            · rw [deactivate_effect_timer, deactivate_effect_laser, deactivate_effect_spot]
              exact ih4
          · exact ⟨ih1, ih2, ih3, ih4, ih5, ih6⟩
      | cycleMode =>
          show SysInv cfg (stepF cfg s Ev.cycleMode)
          simp only [stepF]
          unfold cycle_mode
          split
          · rename_i hm
            dsimp only
            refine ⟨?_, ?_, ?_, ?_, ih5, ih6⟩
            · intro _
              exact on_mode_changed_trail _ _ ih1
            · rw [on_mode_changed_spot]
            · rw [on_mode_changed_laser]
            · rw [on_mode_changed_timer, on_mode_changed_laser, on_mode_changed_spot]
          · rename_i hm
            dsimp only
            refine ⟨?_, ?_, ?_, ?_, ?_, ?_⟩
            · intro _
              exact on_mode_changed_trail _ _ ih1
            · rw [on_mode_changed_spot]
            · rw [on_mode_changed_laser]
            · rw [on_mode_changed_timer, on_mode_changed_laser, on_mode_changed_spot]
            · intro hb
              cases hb
            · intro hb
              exact absurd hb hm
      | tick c =>
          show SysInv cfg (stepF cfg s (Ev.tick c))
          simp only [stepF]
          split
          · refine ⟨?_, ?_, ?_, ?_, ih5, ih6⟩
            · exact on_timer_tick_trail_inv cfg c s.ov ih1
            · rw [on_timer_tick_spot]
              exact ih2
            · rw [on_timer_tick_laser]
              exact ih3
            · rw [on_timer_tick_timer, on_timer_tick_laser, on_timer_tick_spot]
              exact ih4
          · exact ⟨ih1, ih2, ih3, ih4, ih5, ih6⟩
      | screenTick g =>
          show SysInv cfg (stepF cfg s (Ev.screenTick g))
          simp only [stepF]
          unfold check_screen_change
          split
          · dsimp only
            refine ⟨?_, ?_, ?_, ?_, ih5, ih6⟩
            · intro _
              exact on_screen_changed_trail _ _ ih1
            · rw [on_screen_changed_spot]
              exact ih2
            · rw [on_screen_changed_laser]
              exact ih3
            · rw [on_screen_changed_timer, on_screen_changed_laser, on_screen_changed_spot]
              exact ih4
          · exact ⟨ih1, ih2, ih3, ih4, ih5, ih6⟩
      | reactivateTimer c =>
          show SysInv cfg (stepF cfg s (Ev.reactivateTimer c))
          simp only [stepF]
          refine ⟨?_, ?_, ?_, ?_, ih5, ih6⟩
          · intro ha
            rw [fire_pending_activate_trail]
            exact ih1 (fire_pending_activate_active_false c s.ov ha)
          · rw [fire_pending_activate_spot]
            exact ih2
          · rw [fire_pending_activate_laser]
            exact ih3
          · rw [fire_pending_activate_timer, fire_pending_activate_laser,
              fire_pending_activate_spot]
            exact ih4

theorem deactivate_effect_trail_sub (b : Bool) (s : OverlayState) :
    ((deactivate_effect b s).1.laser_trail.length : ℤ) ≤ (s.laser_trail.length : ℤ) := by
  rw [deactivate_effect_fst]
  split <;> simp

theorem on_mode_changed_trail_sub (m : String) (s : OverlayState) :
    ((on_mode_changed m s).1.laser_trail.length : ℤ) ≤ (s.laser_trail.length : ℤ) := by
  unfold on_mode_changed
  dsimp only
  rw [update_timer_state_trail, update_mode_flags_trail]
  exact deactivate_effect_trail_sub true s

theorem on_screen_changed_trail_sub (g : Rect) (s : OverlayState) :
    ((on_screen_changed g s).1.laser_trail.length : ℤ) ≤ (s.laser_trail.length : ℤ) := by
  unfold on_screen_changed
  dsimp only
  rw [deactivate_effect_fst]
  split <;> simp

/-- Inductive bound on the trail length over all reachable states, for a
non-negative configured maximum. -/
theorem reachable_trail_bound (cfg : Config)
    (hmax : 0 ≤ cfg.LASER_MAX_TRAIL_LENGTH) {s : Sys} (h : Reachable cfg s) :
    ((s.ov.laser_trail.length : ℤ)) ≤ cfg.LASER_MAX_TRAIL_LENGTH := by
  induction h with
  | init geom =>
      unfold initSys
      rw [initOverlay_trail]
      simpa using hmax
  | step hr e ih =>
      rename_i s
      cases e with
      | pressActivate c =>
          show ((stepF cfg s (Ev.pressActivate c)).ov.laser_trail.length : ℤ) ≤ _
          simp only [stepF]
          unfold handle_activate
          split
          · split
            · dsimp only
              simp only [List.foldl, applyEmission]
              rw [activate_effect_trail]
              exact ih
            · dsimp only
              simp only [List.foldl, applyEmission]
              exact le_trans (deactivate_effect_trail_sub false s.ov) ih
          · split
            · dsimp only
              simp only [List.foldl, applyEmission]
              rw [activate_effect_trail]
              exact ih
            · exact ih
      | releaseActivate c =>
          show ((stepF cfg s (Ev.releaseActivate c)).ov.laser_trail.length : ℤ) ≤ _
          simp only [stepF]
          unfold handle_deactivate
          split
          · dsimp only
            simp only [List.foldl, applyEmission]
            exact le_trans (deactivate_effect_trail_sub false s.ov) ih
          · exact ih
      | cycleMode =>
          show ((stepF cfg s Ev.cycleMode).ov.laser_trail.length : ℤ) ≤ _
          simp only [stepF]
          exact le_trans (on_mode_changed_trail_sub _ s.ov) ih
      | tick c =>
          show ((stepF cfg s (Ev.tick c)).ov.laser_trail.length : ℤ) ≤ _
          simp only [stepF]
          split
          · exact on_timer_tick_bound cfg c s.ov ih
          · exact ih
      | screenTick g =>
          show ((stepF cfg s (Ev.screenTick g)).ov.laser_trail.length : ℤ) ≤ _
          simp only [stepF]
          unfold check_screen_change
          split
          · dsimp only
            exact le_trans (on_screen_changed_trail_sub g _) ih
          · exact ih
      | reactivateTimer c =>
          show ((stepF cfg s (Ev.reactivateTimer c)).ov.laser_trail.length : ℤ) ≤ _
          simp only [stepF]
          rw [fire_pending_activate_trail]
          exact ih

/-! ### Concrete fixtures used by the witnesses -/

/-- A concrete initial screen geometry. -/
def rect0 : Rect := { x := 0, y := 0, w := 1920, h := 1080 }

/-- A second, different screen geometry. -/
def rect1 : Rect := { x := 1920, y := 0, w := 1280, h := 720 }

/-- The initial system state under the default configuration on `rect0`. -/
def sys0 : Sys := initSys defaultConfig rect0

/-- After one mode-cycle press: current mode `LASER`. -/
def sysLaser : Sys := stepF defaultConfig sys0 Ev.cycleMode

/-- After pressing activate in laser mode. -/
def sysLaserOn : Sys := stepF defaultConfig sysLaser (Ev.pressActivate { x := 3, y := 4 })

/-- After one moved tick: trail of length 1. -/
def sysTrail1 : Sys := stepF defaultConfig sysLaserOn (Ev.tick { x := 10, y := 10 })

/-- After a second moved tick: trail of length 2. -/
def sysTrail2 : Sys := stepF defaultConfig sysTrail1 (Ev.tick { x := 20, y := 20 })

theorem reach_trail2 : Reachable defaultConfig sysTrail2 :=
  ((((Reachable.init rect0).step Ev.cycleMode).step
    (Ev.pressActivate { x := 3, y := 4 })).step
    (Ev.tick { x := 10, y := 10 })).step (Ev.tick { x := 20, y := 20 })

/-! ### The claims -/

/-- C10: whenever the effect is inactive, the laser trail buffer is empty,
in every reachable state: deactivation clears the trail, ticks append only
while the effect is active, and activation adds no points. -/
theorem inactive_trail_empty (cfg : Config) {s : Sys} (h : Reachable cfg s)
    (ha : s.ov.overlay_active = false) : s.ov.laser_trail = [] :=
  (reachable_SysInv cfg h).1 ha

theorem inactive_trail_empty_witness :
    sys0.ov.overlay_active = false ∧ sys0.ov.laser_trail = [] :=
  ⟨by decide, inactive_trail_empty defaultConfig (Reachable.init rect0) (by decide)⟩

/-- C1: for every sequence of timer ticks and activate/deactivate/
mode-cycle/screen-change operations, the trail length never exceeds the
configured `LASER_MAX_TRAIL_LENGTH` (taken non-negative, default 15), and
an appending tick at a full buffer evicts the oldest (front) point. -/
theorem trail_bound_invariant (cfg : Config)
    (hmax : 0 ≤ cfg.LASER_MAX_TRAIL_LENGTH) {s : Sys} (h : Reachable cfg s) :
    ((s.ov.laser_trail.length : ℤ) ≤ cfg.LASER_MAX_TRAIL_LENGTH) ∧
    (∀ c : Pt, mapFromGlobal s.ov.geometry c ≠ s.ov.mouse_pos →
      s.ov.is_laser_mode = true → s.ov.overlay_active = true →
      (s.ov.laser_trail.length : ℤ) = cfg.LASER_MAX_TRAIL_LENGTH →
      (on_timer_tick cfg c s.ov).1.laser_trail =
        (s.ov.laser_trail ++ [mapFromGlobal s.ov.geometry c]).tail) := by
  refine ⟨reachable_trail_bound cfg hmax h, ?_⟩
  intro c hmv hl ha hfull
  rw [on_timer_tick_eq, if_neg hmv, if_pos (by rw [hl, ha]; rfl)]
  dsimp only
  rw [if_pos ?_]
  simp only [List.length_append, List.length_cons, List.length_nil]
  omega

theorem trail_bound_invariant_witness :
    (0 : ℤ) ≤ defaultConfig.LASER_MAX_TRAIL_LENGTH ∧
    ((sysTrail2.ov.laser_trail.length : ℤ) ≤ defaultConfig.LASER_MAX_TRAIL_LENGTH) :=
  ⟨by decide, (trail_bound_invariant defaultConfig (by decide) reach_trail2).1⟩

/-- C3, counterexample: in the reachable initial state of the default
configuration, the animation timer is running (the mode is
`SPOTLIGHT_HOLD`) while the effect is deactivated, and a tick event fires
and mutates the state (the stored mouse position changes); the timer is
configured by the mode alone, not stopped on deactivation. -/
theorem timer_ticks_while_inactive :
    Reachable defaultConfig sys0 ∧
    sys0.ov.timer_active = true ∧
    sys0.ov.overlay_active = false ∧
    (stepF defaultConfig sys0 (Ev.tick { x := 5, y := 7 })).ov.mouse_pos ≠
      sys0.ov.mouse_pos :=
  ⟨Reachable.init rect0, by decide, by decide, by decide⟩

/-- C3, amended: in every reachable state the animation timer is running
exactly when the current mode requires animation (laser or a spotlight
mode, via the cached mode flags); activation and deactivation leave the
timer untouched, and a tick that fires while the effect is deactivated
never requests a repaint. -/
theorem timer_mode_driven (cfg : Config) {s : Sys} (h : Reachable cfg s) :
    s.ov.timer_active = (s.ov.is_laser_mode || s.ov.is_spotlight_mode) ∧
    (∀ b, (deactivate_effect b s.ov).1.timer_active = s.ov.timer_active) ∧
    (∀ c, (activate_effect c s.ov).1.timer_active = s.ov.timer_active) ∧
    (∀ c, s.ov.overlay_active = false → (on_timer_tick cfg c s.ov).2 = false) := by
  obtain ⟨_, _, _, h4, _, _⟩ := reachable_SysInv cfg h
  refine ⟨h4, fun b => deactivate_effect_timer b s.ov,
    fun c => activate_effect_timer c s.ov, fun c ha => ?_⟩
  rw [on_timer_tick_eq]
  split
  · split
    · exact ha
    · rfl
  · split
    · exact ha
    · exact ha

theorem timer_mode_driven_witness :
    sys0.ov.timer_active = (sys0.ov.is_laser_mode || sys0.ov.is_spotlight_mode) :=
  (timer_mode_driven defaultConfig (Reachable.init rect0)).1

/-- C4: in every reachable state, `cycle_mode` leaves the toggle flag
false, returns the new current mode, advances circularly (index + 1
modulo the sequence length) when the configured sequence is non-empty,
and with an empty sequence is a safe no-op returning the default mode
`"SPOTLIGHT_HOLD"` (whose state already has the toggle flag false). -/
theorem cycle_mode_spec (cfg : Config) {s : Sys} (h : Reachable cfg s) :
    (cycle_mode cfg s.gs).1.is_toggled_on = false ∧
    (cycle_mode cfg s.gs).2 = (cycle_mode cfg s.gs).1.current_mode ∧
    (cfg.MODES ≠ [] →
      (cycle_mode cfg s.gs).1.mode_index = (s.gs.mode_index + 1) % cfg.MODES.length ∧
      (cycle_mode cfg s.gs).1.current_mode =
        cfg.MODES.getD ((s.gs.mode_index + 1) % cfg.MODES.length) "SPOTLIGHT_HOLD") ∧
    (cfg.MODES = [] →
      (cycle_mode cfg s.gs).1 = s.gs ∧ (cycle_mode cfg s.gs).2 = "SPOTLIGHT_HOLD") := by
  obtain ⟨_, _, _, _, h5, h6⟩ := reachable_SysInv cfg h
  unfold cycle_mode
  by_cases hm : cfg.MODES = []
  · rw [if_pos hm]
    refine ⟨?_, ?_, fun hne => absurd hm hne, fun _ => ⟨rfl, rfl⟩⟩
    · dsimp only
      cases htog : s.gs.is_toggled_on
      · rfl
      · have hc := h5 htog
        rw [h6 hm] at hc
        simp at hc
    · dsimp only
      rw [h6 hm]
  · rw [if_neg hm]
    exact ⟨rfl, rfl, fun _ => ⟨rfl, rfl⟩, fun he => absurd he hm⟩

theorem cycle_mode_spec_witness :
    (cycle_mode defaultConfig sys0.gs).1.current_mode = "LASER" ∧
    (cycle_mode defaultConfig sys0.gs).1.is_toggled_on = false :=
  ⟨by decide, (cycle_mode_spec defaultConfig (Reachable.init rect0)).1⟩

/-- C7: activate-press flips the toggle flag and emits activate (when it
was off) or deactivate (when it was on) in `SPOTLIGHT_TOGGLE` mode, and
emits activate unconditionally in `SPOTLIGHT_HOLD` or `LASER` mode;
activate-release emits deactivate in `SPOTLIGHT_HOLD`/`LASER` mode and is
a complete no-op (no state change, no emission) in `SPOTLIGHT_TOGGLE`
mode. -/
theorem activate_release_semantics (gs : GlobalState) :
    (gs.current_mode = "SPOTLIGHT_TOGGLE" →
      (gs.is_toggled_on = false →
        handle_activate gs = ({ gs with is_toggled_on := true }, [Emission.activate])) ∧
      (gs.is_toggled_on = true →
        handle_activate gs = ({ gs with is_toggled_on := false }, [Emission.deactivate])) ∧
      handle_deactivate gs = (gs, [])) ∧
    ((gs.current_mode = "SPOTLIGHT_HOLD" ∨ gs.current_mode = "LASER") →
      handle_activate gs = (gs, [Emission.activate]) ∧
      handle_deactivate gs = (gs, [Emission.deactivate])) := by
  constructor
  · intro ht
    refine ⟨?_, ?_, ?_⟩
    · intro htog
      unfold handle_activate
      rw [if_pos ht, if_pos htog]
    · intro htog
      unfold handle_activate
      rw [if_pos ht, if_neg (by simp [htog])]
    · unfold handle_deactivate
      rw [if_neg (by simp [ht])]
  · intro hh
    have hnt : ¬ gs.current_mode = "SPOTLIGHT_TOGGLE" := by
      rcases hh with h | h <;> simp [h]
    constructor
    · unfold handle_activate
      rw [if_neg hnt, if_pos hh]
    · unfold handle_deactivate
      rw [if_pos hh]

/-- A concrete toggle-mode global state for the witness. -/
def gsTog : GlobalState :=
  { mode_index := 0, current_mode := "SPOTLIGHT_TOGGLE", is_toggled_on := false }

theorem activate_release_semantics_witness :
    handle_activate gsTog = ({ gsTog with is_toggled_on := true }, [Emission.activate]) ∧
    handle_deactivate gsTog = (gsTog, []) :=
  ⟨((activate_release_semantics gsTog).1 rfl).1 rfl,
   ((activate_release_semantics gsTog).1 rfl).2.2⟩

/-- C2: in every reachable state in spotlight mode, a tick at which the
pointer has not moved is a complete no-op and requests no repaint, so the
hole-then-rim sequence is not re-issued; spotlight repaints arise only
from moved ticks or the mandated full repaints in activation, mode change
and screen change — and whenever an active spotlight frame is painted it
consists of exactly the clear, the dim fill, the hole cut and the rim. -/
theorem spotlight_skip_when_unmoved (cfg : Config) {s : Sys} (h : Reachable cfg s)
    (hs : s.ov.is_spotlight_mode = true) (c : Pt)
    (hm : mapFromGlobal s.ov.geometry c = s.ov.mouse_pos) :
    on_timer_tick cfg c s.ov = (s.ov, false) ∧
    (s.ov.overlay_active = true →
      paintOps cfg s.ov =
        [DrawOp.fillRect 0 CompMode.sourceOver,
         DrawOp.fillRect (cfg.BACKGROUND_ALPHA : ℚ) CompMode.sourceOver,
         DrawOp.ellipseSolid s.ov.mouse_pos cfg.hole_radius 255 CompMode.destinationOut,
         DrawOp.ellipseRim s.ov.mouse_pos cfg.rim_radius CompMode.sourceOver]) := by
  obtain ⟨_, h2, h3, _, _, _⟩ := reachable_SysInv cfg h
  have hl : s.ov.is_laser_mode = false := by
    rw [h2] at hs
    simp only [Bool.or_eq_true, beq_iff_eq] at hs
    rw [h3]
    rcases hs with hh | hh <;> simp [hh]
  constructor
  · rw [on_timer_tick_eq, if_pos hm, if_neg (by simp [hl])]
  · intro ha
    unfold paintOps
    rw [if_neg (by simp [ha]), if_pos hs]

theorem spotlight_skip_when_unmoved_witness :
    sys0.ov.is_spotlight_mode = true ∧
    on_timer_tick defaultConfig { x := 0, y := 0 } sys0.ov = (sys0.ov, false) :=
  ⟨by decide,
   (spotlight_skip_when_unmoved defaultConfig (Reachable.init rect0) (by decide)
     { x := 0, y := 0 } (by decide)).1⟩

/-- One idle-tick step on the trail alone: pop the front while more than
one point remains. -/
def idleStep (l : List Pt) : List Pt :=
  if 1 < l.length then l.tail else l

theorem on_timer_tick_idle (cfg : Config) (c : Pt) (s : OverlayState)
    (hm : mapFromGlobal s.geometry c = s.mouse_pos) (hl : s.is_laser_mode = true) :
    on_timer_tick cfg c s =
      ({ s with laser_trail := idleStep s.laser_trail },
        decide (1 < s.laser_trail.length) && s.overlay_active) := by
  rw [on_timer_tick_eq, if_pos hm]
  unfold idleStep
  by_cases h1 : 1 < s.laser_trail.length
  · rw [if_pos (by simp [hl, h1]), if_pos h1]
    simp [h1]
  · rw [if_neg (by simp [hl, h1]), if_neg h1]
    simp [h1]

theorem on_timer_tick_idle_iter (cfg : Config) (c : Pt) :
    ∀ (k : ℕ) (s : OverlayState),
      mapFromGlobal s.geometry c = s.mouse_pos → s.is_laser_mode = true →
      (fun ov => (on_timer_tick cfg c ov).1)^[k] s =
        { s with laser_trail := idleStep^[k] s.laser_trail } := by
  intro k
  induction k with
  | zero => intro s _ _; rfl
  | succ k ihk =>
      intro s hm hl
      rw [Function.iterate_succ_apply, Function.iterate_succ_apply]
      have hstep : (on_timer_tick cfg c s).1 =
          { s with laser_trail := idleStep s.laser_trail } := by
        rw [on_timer_tick_idle cfg c s hm hl]
      rw [hstep]
      exact ihk { s with laser_trail := idleStep s.laser_trail } hm hl

theorem idleStep_iter_length :
    ∀ (k : ℕ) (l : List Pt), 1 ≤ l.length →
      (idleStep^[k] l).length = max (l.length - k) 1 := by
  intro k
  induction k with
  | zero => intro l h; simp; omega
  | succ k ihk =>
      intro l h
      rw [Function.iterate_succ_apply]
      by_cases h1 : 1 < l.length
      · rw [show idleStep l = l.tail from if_pos h1]
        rw [ihk l.tail (by simp only [List.length_tail]; omega)]
        simp only [List.length_tail]
        omega
      · rw [show idleStep l = l from if_neg h1]
        rw [ihk l h]
        omega

/-- C5: in laser mode while the effect is active, a tick at an unchanged
pointer position pops the oldest trail point and requests a redraw when
more than one point is held, and does nothing (no state change, no redraw
request) otherwise; consequently from a trail of length `N ≥ 1`, after
`N - 1` idle ticks the trail length is exactly 1 and stays 1 forever. -/
theorem idle_decay_terminates (cfg : Config) (ov : OverlayState)
    (hl : ov.is_laser_mode = true) (ha : ov.overlay_active = true)
    (c : Pt) (hm : mapFromGlobal ov.geometry c = ov.mouse_pos) :
    (1 < ov.laser_trail.length →
      on_timer_tick cfg c ov =
        ({ ov with laser_trail := ov.laser_trail.tail }, true)) ∧
    (ov.laser_trail.length ≤ 1 → on_timer_tick cfg c ov = (ov, false)) ∧
    (∀ N, ov.laser_trail.length = N → 1 ≤ N →
      ((fun o => (on_timer_tick cfg c o).1)^[N - 1] ov).laser_trail.length = 1 ∧
      ∀ k, ((fun o => (on_timer_tick cfg c o).1)^[N - 1 + k] ov).laser_trail.length = 1) := by
  refine ⟨?_, ?_, ?_⟩
  · intro h1
    rw [on_timer_tick_idle cfg c ov hm hl]
    unfold idleStep
    rw [if_pos h1]
    simp [h1, ha]
  · intro h1
    have h1n : ¬ 1 < ov.laser_trail.length := by omega
    rw [on_timer_tick_idle cfg c ov hm hl]
    unfold idleStep
    rw [if_neg h1n]
    simp [h1n]
  · intro N hN h1N
    constructor
    · rw [on_timer_tick_idle_iter cfg c (N - 1) ov hm hl]
      dsimp only
      rw [idleStep_iter_length (N - 1) ov.laser_trail (by omega), hN]
      omega
    · intro k
      rw [on_timer_tick_idle_iter cfg c (N - 1 + k) ov hm hl]
      dsimp only
      rw [idleStep_iter_length (N - 1 + k) ov.laser_trail (by omega), hN]
      omega

theorem idle_decay_terminates_witness :
    sysTrail2.ov.laser_trail.length = 2 ∧
    ((fun o => (on_timer_tick defaultConfig { x := 20, y := 20 } o).1)^[1]
      sysTrail2.ov).laser_trail.length = 1 := by
  refine ⟨by decide, ?_⟩
  have hw := (idle_decay_terminates defaultConfig sysTrail2.ov (by decide) (by decide)
    { x := 20, y := 20 } (by decide)).2.2 2 (by decide) (by decide)
  exact hw.1

/-- Alpha after the initial transparent SourceOver fill equals the
backing-surface alpha: this fill cannot erase content by itself; the
toolkit hands a translucent widget a pre-cleared surface, and on such a
surface the first paint step leaves every pixel fully transparent. -/
theorem renderAlpha_inactive (cfg : Config) (s : OverlayState) (surf : Pt → ℚ)
    (hsurf : ∀ p, surf p = 0) (ha : s.overlay_active = false) :
    ∀ p, renderAlpha cfg s surf p = 0 := by
  intro p
  unfold renderAlpha paintOps
  rw [if_pos ha]
  simp [applyOpAlpha, opSrcAlpha, opMode, compAlpha, hsurf p]

/-- C8: every repaint begins with the full-surface transparent fill; on
the transparent backing surface the toolkit provides, an inactive frame
is fully transparent at every pixel regardless of the mode flags or trail
content, and after `deactivate_effect` (which clears the activation flag
and empties the trail) the next rendered frame is fully transparent. -/
theorem inactive_frame_transparent (cfg : Config) (s : OverlayState) (surf : Pt → ℚ)
    (hsurf : ∀ p, surf p = 0) :
    (paintOps cfg s).head? = some (DrawOp.fillRect 0 CompMode.sourceOver) ∧
    (s.overlay_active = false → ∀ p, renderAlpha cfg s surf p = 0) ∧
    (∀ b, (deactivate_effect b s).1.overlay_active = false ∧
      (s.overlay_active = true → (deactivate_effect b s).1.laser_trail = []) ∧
      ∀ p, renderAlpha cfg (deactivate_effect b s).1 surf p = 0) := by
  refine ⟨rfl, renderAlpha_inactive cfg s surf hsurf, fun b => ?_⟩
  refine ⟨deactivate_effect_active b s, ?_, ?_⟩
  · intro ha
    rw [deactivate_effect_fst, if_pos ha]
  · exact renderAlpha_inactive cfg _ surf hsurf (deactivate_effect_active b s)

/-- The fully transparent backing surface. -/
def surf0 : Pt → ℚ := fun _ => 0

theorem inactive_frame_transparent_witness :
    surf0 { x := 3, y := 4 } = 0 ∧
    renderAlpha defaultConfig sys0.ov surf0 { x := 3, y := 4 } = 0 :=
  ⟨rfl, (inactive_frame_transparent defaultConfig sys0.ov surf0 (fun _ => rfl)).2.1
    (by decide) { x := 3, y := 4 }⟩

/-- C9: when the screen tracker observes a geometry under the pointer
that differs from the stored one, it stores the new geometry and runs the
handler, which deactivates as a mode-switch-style reset (no focus
restoration is scheduled), leaves the trail empty, resizes the overlay to
the new geometry, forces one immediate repaint that renders fully
transparent, records whether the effect was active, and — when it was —
the queued delayed reactivation (150 time units) ends with the effect
active and an empty trail. -/
theorem screen_change_handler_spec (cfg : Config) {s : Sys} (h : Reachable cfg s)
    (g : Rect) (hne : g ≠ s.ov.current_geometry) :
    (check_screen_change g s.ov).1.current_geometry = g ∧
    (check_screen_change g s.ov).1.geometry = g ∧
    (check_screen_change g s.ov).1.overlay_active = false ∧
    (check_screen_change g s.ov).1.laser_trail = [] ∧
    (check_screen_change g s.ov).2.1 = true ∧
    (check_screen_change g s.ov).2.2 = false ∧
    (check_screen_change g s.ov).1.pending_reactivate = s.ov.overlay_active ∧
    (∀ surf : Pt → ℚ, (∀ p, surf p = 0) →
      ∀ p, renderAlpha cfg (check_screen_change g s.ov).1 surf p = 0) ∧
    (s.ov.overlay_active = true → ∀ c,
      (fire_pending_activate c (check_screen_change g s.ov).1).overlay_active = true ∧
      (fire_pending_activate c (check_screen_change g s.ov).1).laser_trail = []) := by
  obtain ⟨ih1, _, _, _, _, _⟩ := reachable_SysInv cfg h
  have hif : check_screen_change g s.ov =
      on_screen_changed g { s.ov with current_geometry := g } := by
    unfold check_screen_change
    rw [if_pos hne]
  rw [hif]
  have htrail : (on_screen_changed g { s.ov with current_geometry := g }).1.laser_trail
      = [] := on_screen_changed_trail g _ ih1
  have hact : (on_screen_changed g { s.ov with current_geometry := g }).1.overlay_active
      = false := on_screen_changed_active g _
  refine ⟨?_, on_screen_changed_geometry g _, hact, htrail, ?_, on_screen_changed_focus g _,
    on_screen_changed_pending g _, ?_, ?_⟩
  · rw [on_screen_changed_cgeom]
  · unfold on_screen_changed
    rfl
  · intro surf hsurf
    exact renderAlpha_inactive cfg _ surf hsurf hact
  · intro ha c
    have hpend : (on_screen_changed g { s.ov with current_geometry := g
        }).1.pending_reactivate = true := by
      rw [on_screen_changed_pending]
      exact ha
    unfold fire_pending_activate
    rw [if_pos hpend]
    exact ⟨activate_effect_active c _, by rw [activate_effect_trail]; exact htrail⟩

theorem screen_change_handler_spec_witness :
    sysTrail2.ov.overlay_active = true ∧
    (check_screen_change rect1 sysTrail2.ov).1.geometry = rect1 ∧
    (fire_pending_activate { x := 0, y := 0 }
      (check_screen_change rect1 sysTrail2.ov).1).overlay_active = true ∧
    (fire_pending_activate { x := 0, y := 0 }
      (check_screen_change rect1 sysTrail2.ov).1).laser_trail = [] := by
  have hth := screen_change_handler_spec defaultConfig reach_trail2 rect1 (by decide)
  exact ⟨by decide, hth.2.1,
    (hth.2.2.2.2.2.2.2.2 (by decide) { x := 0, y := 0 }).1,
    (hth.2.2.2.2.2.2.2.2 (by decide) { x := 0, y := 0 }).2⟩

theorem laserT_eq (total i : ℕ) (hT : 2 ≤ total) :
    laserT total i = (i : ℚ) / ((total : ℚ) - 1) := by
  unfold laserT
  rw [if_pos (by omega)]

theorem total_den_pos (total : ℕ) (hT : 2 ≤ total) : (0 : ℚ) < (total : ℚ) - 1 := by
  have h2 : (2 : ℚ) ≤ (total : ℚ) := by exact_mod_cast hT
  linarith

theorem laserT_nonneg (total i : ℕ) (hT : 2 ≤ total) : 0 ≤ laserT total i := by
  rw [laserT_eq total i hT]
  exact div_nonneg (Nat.cast_nonneg i) (le_of_lt (total_den_pos total hT))

theorem laserT_lt_one (total i : ℕ) (hT : 2 ≤ total) (hi : i < total - 1) :
    laserT total i < 1 := by
  rw [laserT_eq total i hT]
  rw [div_lt_one (total_den_pos total hT)]
  have h1 : i + 1 < total := by omega
  have h2 : ((i : ℚ) + 1) < (total : ℚ) := by exact_mod_cast h1
  linarith

theorem laserT_mono (total : ℕ) (hT : 2 ≤ total) {i j : ℕ} (hij : i ≤ j) :
    laserT total i ≤ laserT total j := by
  rw [laserT_eq total i hT, laserT_eq total j hT]
  have hij' : (i : ℚ) ≤ (j : ℚ) := by exact_mod_cast hij
  exact div_le_div_of_nonneg_right hij' (le_of_lt (total_den_pos total hT))

theorem laserT_sub (total : ℕ) (hT : 2 ≤ total) (i j : ℕ) :
    laserT total j - laserT total i = ((j : ℚ) - (i : ℚ)) / ((total : ℚ) - 1) := by
  rw [laserT_eq total i hT, laserT_eq total j hT, div_sub_div_same]

theorem laserAlpha_floor (cfg : Config) (total i : ℕ)
    (hm0 : 0 ≤ cfg.LASER_MIN_ALPHA) (hm255 : cfg.LASER_MIN_ALPHA ≤ 255)
    (hT : 2 ≤ total) (hi : i < total - 1) :
    laserDotAlpha cfg total i =
      ⌊(cfg.LASER_MIN_ALPHA : ℚ)
        + ((255 : ℚ) - (cfg.LASER_MIN_ALPHA : ℚ)) * laserT total i⌋ := by
  unfold laserDotAlpha
  rw [if_neg (by omega)]
  unfold pyInt
  rw [if_pos ?_]
  have hm0q : (0 : ℚ) ≤ (cfg.LASER_MIN_ALPHA : ℚ) := by exact_mod_cast hm0
  have hDq : (0 : ℚ) ≤ (255 : ℚ) - (cfg.LASER_MIN_ALPHA : ℚ) := by
    have : (cfg.LASER_MIN_ALPHA : ℚ) ≤ 255 := by exact_mod_cast hm255
    linarith
  exact add_nonneg hm0q (mul_nonneg hDq (laserT_nonneg total i hT))

/-- C6, amended: for a non-empty trail of `total` dots, the head dot
(index `total - 1`) is drawn with alpha 255 and radius
`LASER_BASE_RADIUS * LASER_HEAD_MULTIPLIER`; every non-head dot has
radius `LASER_BASE_RADIUS` and alpha in `[LASER_MIN_ALPHA, 255)`
(for `0 ≤ LASER_MIN_ALPHA < 255`); non-head alphas are non-decreasing
with recency, and strictly increasing whenever the alpha span
`255 - LASER_MIN_ALPHA` is at least `total - 1` — in particular for the
default configuration (`LASER_MIN_ALPHA = 25`) at any trail length up to
the default bound 15. -/
theorem laser_dot_math (cfg : Config) (total : ℕ)
    (hm0 : 0 ≤ cfg.LASER_MIN_ALPHA) (hm255 : cfg.LASER_MIN_ALPHA < 255)
    (hT : 2 ≤ total) :
    laserDotAlpha cfg total (total - 1) = 255 ∧
    laserDotRadius cfg total (total - 1) =
      cfg.LASER_BASE_RADIUS * cfg.LASER_HEAD_MULTIPLIER ∧
    (∀ i, i < total - 1 →
      laserDotRadius cfg total i = cfg.LASER_BASE_RADIUS ∧
      cfg.LASER_MIN_ALPHA ≤ laserDotAlpha cfg total i ∧
      laserDotAlpha cfg total i < 255) ∧
    (∀ i j, i ≤ j → j < total - 1 →
      laserDotAlpha cfg total i ≤ laserDotAlpha cfg total j) ∧
    ((total : ℤ) - 1 ≤ 255 - cfg.LASER_MIN_ALPHA →
      ∀ i j, i < j → j < total - 1 →
      laserDotAlpha cfg total i < laserDotAlpha cfg total j) := by
  have hm255w : cfg.LASER_MIN_ALPHA ≤ 255 := le_of_lt hm255
  have hmq : (cfg.LASER_MIN_ALPHA : ℚ) < 255 := by exact_mod_cast hm255
  have hDpos : (0 : ℚ) < (255 : ℚ) - (cfg.LASER_MIN_ALPHA : ℚ) := by linarith
  refine ⟨?_, ?_, ?_, ?_, ?_⟩
  · unfold laserDotAlpha
    rw [if_pos rfl]
  · unfold laserDotRadius
    rw [if_pos rfl]
  · intro i hi
    refine ⟨?_, ?_, ?_⟩
    · unfold laserDotRadius
      rw [if_neg (by omega)]
    · rw [laserAlpha_floor cfg total i hm0 hm255w hT hi]
      rw [Int.le_floor]
      have := mul_nonneg (le_of_lt hDpos) (laserT_nonneg total i hT)
      linarith
    · rw [laserAlpha_floor cfg total i hm0 hm255w hT hi]
      rw [Int.floor_lt]
      push_cast
      have ht1 := laserT_lt_one total i hT hi
      nlinarith
  · intro i j hij hj
    have hi : i < total - 1 := by omega
    rw [laserAlpha_floor cfg total i hm0 hm255w hT hi,
      laserAlpha_floor cfg total j hm0 hm255w hT hj]
    apply Int.floor_le_floor
    have := laserT_mono total hT hij
    nlinarith
  · intro hgap i j hij hj
    have hi : i < total - 1 := by omega
    rw [laserAlpha_floor cfg total i hm0 hm255w hT hi,
      laserAlpha_floor cfg total j hm0 hm255w hT hj]
    have hgapq : (total : ℚ) - 1 ≤ (255 : ℚ) - (cfg.LASER_MIN_ALPHA : ℚ) := by
      have := hgap
      push_cast at this ⊢
      exact_mod_cast this
    have hden := total_den_pos total hT
    have hsub : laserT total j - laserT total i =
        ((j : ℚ) - (i : ℚ)) / ((total : ℚ) - 1) := laserT_sub total hT i j
    have hone : (1 : ℚ) ≤ ((j : ℚ) - (i : ℚ)) := by
      have : i + 1 ≤ j := hij
      have h2 : ((i : ℚ) + 1) ≤ (j : ℚ) := by exact_mod_cast this
      linarith
    have hstep : (1 : ℚ) ≤
        ((255 : ℚ) - (cfg.LASER_MIN_ALPHA : ℚ)) * (laserT total j - laserT total i) := by
      rw [hsub, ← mul_div_assoc, le_div_iff₀ hden]
      nlinarith
    have hfi := Int.floor_le ((cfg.LASER_MIN_ALPHA : ℚ)
      + ((255 : ℚ) - (cfg.LASER_MIN_ALPHA : ℚ)) * laserT total i)
    rw [Int.lt_iff_add_one_le, Int.le_floor]
    push_cast
    nlinarith

/-- The default configuration with the configurable minimum trail alpha
raised to 254 (any integer is accepted by the config parser). -/
def cfg254 : Config := { defaultConfig with LASER_MIN_ALPHA := 254 }

/-- C6, counterexample: with `LASER_MIN_ALPHA = 254` and a trail of three
dots, the two non-head dots (indices 0 and 1, index 1 more recent) both
get truncated alpha 254 — the non-head alphas are not strictly increasing
with recency. -/
theorem laser_alpha_not_strictly_increasing :
    cfg254.LASER_MIN_ALPHA = 254 ∧
    laserDotAlpha cfg254 3 0 = 254 ∧
    laserDotAlpha cfg254 3 1 = 254 ∧
    ¬ laserDotAlpha cfg254 3 0 < laserDotAlpha cfg254 3 1 := by
  have h0 : laserDotAlpha cfg254 3 0 = 254 := by
    norm_num [laserDotAlpha, pyInt, laserT, cfg254, defaultConfig]
  have h1 : laserDotAlpha cfg254 3 1 = 254 := by
    norm_num [laserDotAlpha, pyInt, laserT, cfg254, defaultConfig]
  exact ⟨rfl, h0, h1, by omega⟩

theorem laser_dot_math_witness :
    (0 : ℤ) ≤ defaultConfig.LASER_MIN_ALPHA ∧
    defaultConfig.LASER_MIN_ALPHA < 255 ∧
    laserDotAlpha defaultConfig 5 4 = 255 :=
  ⟨by decide, by decide,
   (laser_dot_math defaultConfig 5 (by decide) (by decide) (by decide)).1⟩
